import Mathlib

/-!
Verification of the pyiridium9602 protocol engine (`pyiridium9602/pyiridium.py`
and `pyiridium9602/pyiridium_server.py`).

A Python byte string is embedded as `List Nat` (each element a byte value).
Python operations used by the source are modelled byte-for-byte:

* `bytes.find` / `bytes.index` / the `in` containment test: `bytesFind`;
* slicing `s[a:b]`: `List.take` / `List.drop`;
* `bytes.strip()`: `pyStrip` (the six ASCII whitespace bytes);
* `bytes.splitlines()`: `pySplitlines` (boundaries CR, LF, CRLF);
* `bytes.replace(pat, b'')`: `pyReplace` (leftmost, non-overlapping);
* `bytes.split(b',')`: `pySplitComma`;
* `int(...)`: `pyInt` (sign + ASCII decimal digits; Python additionally
  accepts underscore separators and non-ASCII digits, which no theorem here
  depends on);
* `int.from_bytes(..., "big")`: `fromBytesBE`;
* `int(sum(x)).to_bytes(4, "big")[2:]`: `toBytes2` (the low 16 bits,
  big-endian; the source sums at most 340 bytes so the 4-byte bound of
  `to_bytes` is never exceeded);
* `collections.deque(maxlen=100).append`: `appendMax` (evicts the oldest
  element when full).
-/

/-- The six ASCII whitespace bytes removed by Python `bytes.strip()`. -/
def isPySpace (b : Nat) : Bool :=
  b = 32 || b = 9 || b = 10 || b = 13 || b = 11 || b = 12

/-- Python `bytes.strip()`: drop whitespace from both ends. -/
def pyStrip (s : List Nat) : List Nat :=
  ((s.dropWhile isPySpace).reverse.dropWhile isPySpace).reverse

/-- Python `bytes.find` (and `bytes.index` where the source has already
checked containment): index of the first occurrence of `pat`, if any. -/
def bytesFind (pat s : List Nat) : Option Nat :=
  if pat.isPrefixOf s then some 0
  else
    match s with
    | [] => none
    | _ :: t => (bytesFind pat t).map (fun n => n + 1)

/-- Python containment test `pat in s`. -/
def bytesContains (pat s : List Nat) : Bool :=
  (bytesFind pat s).isSome

theorem bytesFind_isPrefixOf (pat : List Nat) :
    ∀ (s : List Nat) (i : Nat), bytesFind pat s = some i →
      pat.isPrefixOf (s.drop i) := by
  intro s
  induction s with
  | nil =>
    intro i h
    rw [bytesFind.eq_def] at h
    split at h
    · rename_i hpre
      injection h with h'
      subst h'
      simpa using hpre
    · simp at h
  | cons b t ih =>
    intro i h
    rw [bytesFind.eq_def] at h
    split at h
    · rename_i hpre
      injection h with h'
      subst h'
      simpa using hpre
    · simp only [Option.map_eq_some'] at h
      obtain ⟨j, hj, rfl⟩ := h
      simpa using ih j hj

theorem bytesFind_le_length (pat : List Nat) :
    ∀ (s : List Nat) (i : Nat), bytesFind pat s = some i → i ≤ s.length := by
  intro s
  induction s with
  | nil =>
    intro i h
    rw [bytesFind.eq_def] at h
    split at h
    · injection h with h'
      omega
    · simp at h
  | cons b t ih =>
    intro i h
    rw [bytesFind.eq_def] at h
    split at h
    · injection h with h'
      omega
    · simp only [Option.map_eq_some'] at h
      obtain ⟨j, hj, rfl⟩ := h
      have := ih j hj
      simp only [List.length_cons]
      omega

theorem bytesFind_add_length_le (pat s : List Nat) (i : Nat)
    (h : bytesFind pat s = some i) : i + pat.length ≤ s.length := by
  have h1 := bytesFind_le_length pat s i h
  have h2 := (List.isPrefixOf_iff_prefix.mp
    (bytesFind_isPrefixOf pat s i h)).length_le
  simp only [List.length_drop] at h2
  omega

/-- A successful find decomposes the string as prefix, pattern, rest. -/
theorem bytesFind_decomp (pat s : List Nat) (i : Nat)
    (h : bytesFind pat s = some i) :
    s = s.take i ++ pat ++ s.drop (i + pat.length) := by
  obtain ⟨t, ht⟩ := List.isPrefixOf_iff_prefix.mp (bytesFind_isPrefixOf pat s i h)
  have h2 : s.drop (i + pat.length) = t := by
    have h3 : (s.drop i).drop pat.length = t := by
      rw [← ht]
      simp
    rw [List.drop_drop] at h3
    exact h3
  rw [h2, List.append_assoc, ht]
  exact (List.take_append_drop i s).symm

/-- Position and width of the first line boundary (LF, CR, or CRLF),
as recognised by Python `bytes.splitlines()`. -/
def findLineBreak : List Nat → Option (Nat × Nat)
  | [] => none
  | b :: t =>
    if b = 13 then
      if t.head? = some 10 then some (0, 2) else some (0, 1)
    else if b = 10 then some (0, 1)
    else (findLineBreak t).map (fun p => (p.1 + 1, p.2))

theorem findLineBreak_bounds :
    ∀ (s : List Nat) (i k : Nat), findLineBreak s = some (i, k) →
      1 ≤ i + k ∧ i + k ≤ s.length := by
  intro s
  induction s with
  | nil =>
    intro i k h
    simp [findLineBreak] at h
  | cons b t ih =>
    intro i k h
    rw [findLineBreak] at h
    split at h
    · split at h
      · rename_i hb hh
        have ht : 1 ≤ t.length := by
          cases t
          · simp at hh
          · simp
        simp only [Option.some.injEq, Prod.mk.injEq] at h
        obtain ⟨rfl, rfl⟩ := h
        simp only [List.length_cons]
        omega
      · simp only [Option.some.injEq, Prod.mk.injEq] at h
        obtain ⟨rfl, rfl⟩ := h
        simp only [List.length_cons]
        omega
    · split at h
      · simp only [Option.some.injEq, Prod.mk.injEq] at h
        obtain ⟨rfl, rfl⟩ := h
        simp only [List.length_cons]
        omega
      · simp only [Option.map_eq_some'] at h
        obtain ⟨⟨i', k'⟩, hik, h2⟩ := h
        simp only [Prod.mk.injEq] at h2
        obtain ⟨rfl, rfl⟩ := h2
        have := ih i' k' hik
        simp only [List.length_cons]
        omega

/-- Python `bytes.splitlines()`. -/
def pySplitlines (s : List Nat) : List (List Nat) :=
  match h : findLineBreak s with
  | none => if s = [] then [] else [s]
  | some (i, k) => s.take i :: pySplitlines (s.drop (i + k))
termination_by s.length
decreasing_by
  have := findLineBreak_bounds s i k h
  simp; omega

/-- ASCII decimal digit test. -/
def isDigit (b : Nat) : Bool := 48 ≤ b && b ≤ 57

/-- Value of a list of ASCII decimal digits. -/
def digitsToNat (l : List Nat) : Nat :=
  l.foldl (fun a b => a * 10 + (b - 48)) 0

/-- Shared body of `pyInt` after the sign has been consumed. -/
def pyIntCore (sign : Int) (d : List Nat) : Option Int :=
  if d ≠ [] ∧ d.all isDigit then some (sign * (digitsToNat d : Int)) else none

/-- Python `int(...)` applied to a decoded byte string: optional surrounding
whitespace, an optional sign, then one or more ASCII decimal digits. -/
def pyInt (s : List Nat) : Option Int :=
  match pyStrip s with
  | 43 :: r => pyIntCore 1 r
  | 45 :: r => pyIntCore (-1) r
  | r => pyIntCore 1 r

/-- ASCII hexadecimal digit test. -/
def isHexDigit (b : Nat) : Bool :=
  (48 ≤ b && b ≤ 57) || (97 ≤ b && b ≤ 102) || (65 ≤ b && b ≤ 70)

/-- Value of one ASCII hexadecimal digit. -/
def hexDigitVal (b : Nat) : Nat :=
  if 48 ≤ b && b ≤ 57 then b - 48
  else if 97 ≤ b && b ≤ 102 then b - 87
  else b - 55

/-- Python `int(..., 16)`: optional sign then hexadecimal digits (the
optional `0x` prefix Python also accepts is not needed by any theorem). -/
def pyIntHex (s : List Nat) : Option Int :=
  let core : List Nat → Option Nat := fun d =>
    if d ≠ [] ∧ d.all isHexDigit then
      some (d.foldl (fun a b => a * 16 + hexDigitVal b) 0)
    else none
  match pyStrip s with
  | 43 :: r => (core r).map (fun n => (n : Int))
  | 45 :: r => (core r).map (fun n => -(n : Int))
  | r => (core r).map (fun n => (n : Int))

/-- Python `s.split(b",")` (the source splits the decoded string on the
comma character). -/
def pySplitComma (s : List Nat) : List (List Nat) :=
  match h : bytesFind [44] s with
  | none => [s]
  | some i => s.take i :: pySplitComma (s.drop (i + 1))
termination_by s.length
decreasing_by
  have hlen := bytesFind_add_length_le [44] s i h
  simp only [List.length_cons, List.length_nil, List.length_drop] at hlen ⊢
  omega

/-- Python `int.from_bytes(s, "big")`. -/
def fromBytesBE (s : List Nat) : Nat :=
  s.foldl (fun a b => a * 256 + b) 0

/-- Python `int(n).to_bytes(4, "big")[2:]`: the low 16 bits of `n`,
big-endian (the source only applies this to sums below two to the 32). -/
def toBytes2 (n : Nat) : List Nat :=
  [n / 256 % 256, n % 256]

/-- Python `int(n).to_bytes(2, "big")` (used by the emulator to frame the
length of a read-binary response). -/
def lenBytes2 (n : Nat) : List Nat :=
  [n / 256 % 256, n % 256]

/-- Python `str(n)` for a natural number, as ASCII bytes. -/
def natToDecBytes (n : Nat) : List Nat :=
  if h : n < 10 then [48 + n]
  else natToDecBytes (n / 10) ++ [48 + n % 10]
termination_by n
decreasing_by
  exact Nat.div_lt_self (by omega) (by omega)

/-- Python `bytes.replace(pat, b'')` with a non-empty pattern: remove all
leftmost non-overlapping occurrences of `pat`. -/
def pyReplace (pat s : List Nat) : List Nat :=
  match s with
  | [] => []
  | b :: t =>
    if h : pat ≠ [] ∧ pat.isPrefixOf (b :: t) then
      pyReplace pat ((b :: t).drop pat.length)
    else
      b :: pyReplace pat t
termination_by s.length
decreasing_by
  · have h1 : 1 ≤ pat.length := by
      cases hp : pat with
      | nil => exact absurd hp h.1
      | cons x xs => simp
    simp only [List.length_drop, List.length_cons]
    omega
  · simp

/-- One append to a `collections.deque(maxlen=100)`: when the deque is
full the oldest (leftmost) element is evicted. -/
def appendMax (q : List (List Nat)) (c : List Nat) : List (List Nat) :=
  if q.length < 100 then q ++ [c] else q.tail ++ [c]

theorem appendMax_length_ge (q : List (List Nat)) (c : List Nat) :
    q.length ≤ (appendMax q c).length := by
  unfold appendMax
  split <;> simp [List.length_tail] <;> omega

-- Byte constants of the source's Command catalog (class Command).
def okBytes : List Nat := [79, 75]                            -- b'OK'
def ringBytes : List Nat := [83, 66, 68, 82, 73, 78, 71]      -- b'SBDRING'
def readyBytes : List Nat := [82, 69, 65, 68, 89]             -- b'READY'
def pingBytes : List Nat := [65, 84]                          -- b'AT'
def systemTimeBytes : List Nat := [65, 84, 45, 77, 83, 83, 84, 77]      -- b'AT-MSSTM'
def serialNumberBytes : List Nat := [65, 84, 43, 67, 71, 83, 78]        -- b'AT+CGSN'
def signalQualityBytes : List Nat := [65, 84, 43, 67, 83, 81]           -- b'AT+CSQ'
def checkRingBytes : List Nat := [65, 84, 43, 67, 82, 73, 83]           -- b'AT+CRIS'
def clearBufferBytes : List Nat := [65, 84, 43, 83, 66, 68, 68]         -- b'AT+SBDD'
def clearMoBufferBytes : List Nat := clearBufferBytes ++ [48]           -- b'AT+SBDD0'
def clearMtBufferBytes : List Nat := clearBufferBytes ++ [49]           -- b'AT+SBDD1'
def clearBothBuffersBytes : List Nat := clearBufferBytes ++ [50]        -- b'AT+SBDD2'
def sessionBytes : List Nat := [65, 84, 43, 83, 66, 68, 73, 88]         -- b'AT+SBDIX'
def readBinaryBytes : List Nat := [65, 84, 43, 83, 66, 68, 82, 66]      -- b'AT+SBDRB'
def readBinaryMarker : List Nat := readBinaryBytes ++ [13]              -- b'AT+SBDRB\r'
def writeBinaryBytes : List Nat := [65, 84, 43, 83, 66, 68, 87, 66, 61] -- b'AT+SBDWB='

-- Wire-codec parsers (module-level functions of pyiridium.py).
-- A Python function that raises IridiumError is modelled as returning none.

/-- Source `parse_system_time`: locate b'-MSSTM:', trim the token up to the
next newline, require at least 8 characters, parse base 16. -/
def parse_system_time (data : List Nat) : Option Int :=
  let resp := pyStrip data
  match bytesFind [45, 77, 83, 83, 84, 77, 58] resp with
  | none => none
  | some idx =>
    let r1 := pyStrip (resp.drop (idx + 7))
    let r2 := match bytesFind [10] r1 with
      | some e => pyStrip (r1.take e)
      | none => r1
    if 8 ≤ r2.length then pyIntHex r2 else none

/-- Source `parse_serial_number`: first stripped line that does not contain
the echo b'AT+CGSN' or b'AT+GSN' and is non-empty; succeeds when that line
differs from b'OK' and the input is non-empty. -/
def parse_serial_number (data : List Nat) : Option (List Nat) :=
  let resp :=
    (((pySplitlines data).map pyStrip).find? (fun l =>
      !bytesContains serialNumberBytes l &&
      !bytesContains [65, 84, 43, 71, 83, 78] l &&
      !l.isEmpty)).getD []
  if resp ≠ okBytes ∧ data ≠ [] then some resp else none

/-- Source `parse_signal_quality`: locate b'+CSQ:', take the trimmed token
up to the next newline, parse as a decimal integer.  The source performs no
range check on the parsed value. -/
def parse_signal_quality (data : List Nat) : Option Int :=
  let resp := pyStrip data
  match bytesFind [43, 67, 83, 81, 58] resp with
  | none => none
  | some idx =>
    let r1 := pyStrip (resp.drop (idx + 5))
    let r2 := match bytesFind [10] r1 with
      | some e => pyStrip (r1.take e)
      | none => r1
    pyInt r2

/-- Source `parse_check_ring`: locate b'+CRIS:', split the trimmed tail on
the comma, parse the first two fields as decimal integers. -/
def parse_check_ring (data : List Nat) : Option (Int × Int) :=
  let resp := pyStrip data
  match bytesFind [43, 67, 82, 73, 83, 58] resp with
  | none => none
  | some idx =>
    let r1 := pyStrip (resp.drop (idx + 6))
    let r2 := match bytesFind [10] r1 with
      | some e => pyStrip (r1.take e)
      | none => r1
    match pySplitComma r2 with
    | p0 :: p1 :: _ =>
      match pyInt p0, pyInt p1 with
      | some tri, some sri => some (tri, sri)
      | _, _ => none
    | _ => none

/-- Source `parse_session`: locate b'+SBDIX:', split the trimmed tail on
the comma, parse six decimal fields. -/
def parse_session (data : List Nat) :
    Option (Int × Int × Int × Int × Int × Int) :=
  let resp := pyStrip data
  match bytesFind [43, 83, 66, 68, 73, 88, 58] resp with
  | none => none
  | some idx =>
    let r1 := pyStrip (resp.drop (idx + 7))
    let r2 := match bytesFind [10] r1 with
      | some e => pyStrip (r1.take e)
      | none => r1
    match pySplitComma r2 with
    | p0 :: p1 :: p2 :: p3 :: p4 :: p5 :: _ =>
      match pyInt p0, pyInt p1, pyInt p2, pyInt p3, pyInt p4, pyInt p5 with
      | some mo, some momsn, some mts, some mtmsn, some mtlen, some mtq =>
        some (mo, momsn, mts, mtmsn, mtlen, mtq)
      | _, _, _, _, _, _ => none
    | _ => none

/-- Source `parse_read_binary`: strip an optional leading echo
b'AT+SBDRB\r', read a 2-byte big-endian length, that many content bytes,
and a 2-byte checksum; fail when fewer than two checksum bytes remain. -/
def parse_read_binary (data : List Nat) :
    Option (Nat × List Nat × List Nat × List Nat) :=
  let d := match bytesFind readBinaryMarker data with
    | some i => data.drop (i + 9)
    | none => data
  let msgLen := fromBytesBE (d.take 2)
  let content := (d.drop 2).take msgLen
  let checksum := (d.drop (msgLen + 2)).take 2
  if checksum.length ≠ 2 then none
  else some (msgLen, content, checksum, toBytes2 content.sum)

/-- Source `has_read_binary_data`: the same framing check as
`parse_read_binary`, returning only whether enough bytes are present. -/
def has_read_binary_data (data : List Nat) : Bool :=
  let d := match bytesFind readBinaryMarker data with
    | some i => data.drop (i + 9)
    | none => data
  let msgLen := fromBytesBE (d.take 2)
  ((d.drop (msgLen + 2)).take 2).length = 2

/-- Source `parse_write_binary`: success iff the stripped response is
non-empty and its last byte is ASCII b'0'. -/
def parse_write_binary (data : List Nat) : Option Bool :=
  match (pyStrip data).getLast? with
  | some b => some (b = 48)
  | none => none

/-- Spec scenario S2: b'AT+CSQ\r\r\n+CSQ:3\r\n\r\n' parses to 3. -/
theorem spec_scenario_signal_quality : parse_signal_quality
    [65, 84, 43, 67, 83, 81, 13, 13, 10, 43, 67, 83, 81, 58, 51, 13, 10, 13, 10] =
    some 3 := by decide

/-- Spec scenario S1: b'\r\n-MSSTM: 000186a0\r\n' parses to 100000. -/
theorem spec_scenario_system_time : parse_system_time
    [13, 10, 45, 77, 83, 83, 84, 77, 58, 32, 48, 48, 48, 49, 56, 54, 97, 48, 13, 10] =
    some 100000 := by decide

-- The MO_STATUS table of the source (module-level dict), keyed by the
-- integer status parsed from the +SBDIX: response.  Entry 1 reproduces the
-- source's string concatenation, which yields a double space before
-- "queue".
def MO_STATUS (k : Int) : Option String :=
  if k = 0 then some "MO message, if any, transferred successfully."
  else if k = 1 then
    some "MO message, if any, transferred successfully, but the MT message in the  queue was too big to be transferred."
  else if k = 2 then
    some "MO message, if any, transferred successfully, but the requested Location Update was not accepted."
  else if k = 3 then some "Reserved, but indicate MO session success if used."
  else if k = 4 then some "Reserved, but indicate MO session success if used."
  else if 5 ≤ k ∧ k ≤ 8 then some "Reserved, but indicate MO session failure if used."
  else if k = 10 then some "Gateway reported that the call did not complete in the allowed time."
  else if k = 11 then some "MO message queue at the Gateway is full."
  else if k = 12 then some "MO message has too many segments."
  else if k = 13 then some "Gateway reported that the session did not complete"
  else if k = 14 then some "Invalid segment size."
  else if k = 15 then some "Access is denied."
  else if k = 16 then some "9602 has been locked and may not make SBD calls (see +CULK command)."
  else if k = 17 then some "Gateway not responding (local session timeout)."
  else if k = 18 then some "Connection lost (RF drop)."
  else if k = 32 then some "No network service, unable to initiate call."
  else if k = 33 then some "Antenna fault, unable to initiate call."
  else if k = 34 then some "Radio is disabled, unable to initiate call (see *Rn command)."
  else if k = 35 then some "9602 is busy, unable to initiate call (typically performing auto-registration)."
  else none

/-- Source `MO_STATUS.get(mo_status, "Unknown failure!")`. -/
def moStatusText (k : Int) : String :=
  (MO_STATUS k).getD "Unknown failure!"

/-- The MT_STATUS table of the source. -/
def MT_STATUS (k : Int) : Option String :=
  if k = 0 then some "No MT SBD message to receive from the Gateway."
  else if k = 1 then some "MT SBD message successfully received from the Gateway."
  else if k = 2 then
    some "An error occurred while attempting to perform a mailbox check or receive a message from the Gateway."
  else none

/-- Source `MT_STATUS.get(mt_status, "Unknown error!")`. -/
def mtStatusText (k : Int) : String :=
  (MT_STATUS k).getD "Unknown error!"

/-- One observable callback on the engine's Signal object, with the
arguments the source passes. -/
inductive Event where
  | systemTimeUpdated (t : Int)
  | serialNumberUpdated (sn : List Nat)
  | signalQualityUpdated (q : Int)
  | checkRingUpdated (tri sri : Int)
  | messageReceived (content : List Nat)
  | messageReceiveFailed (msgLen : Nat) (content checksum calcCheck : List Nat)
  | messageTransferred (moMsn : Int)
  | messageTransferFailed (moMsn : Int)
  | notificationEvent (kind msg detail : String)
  | commandFinished (cmd : List Nat) (ok : Bool) (contents : List Nat)
deriving DecidableEq

/-- The mutable fields of IridiumCommunicator that `check_io` touches:
`_read_buf`, `_previous_command`, `_sequential_write_queue`,
`_write_queue`, `_serial_number` (kept as raw bytes), `_last_mt_queued`,
`_last_mt_queued_retry`, and the two options the engine reads
(`telephone` and `auto_read`). -/
structure EngineState where
  readBuf : List Nat
  prevCmd : Option (List Nat)
  seqQueue : List (List Nat)
  writeQueue : List (List Nat)
  serialNumber : List Nat
  lastMtQueued : Int
  lastMtRetry : Nat
  optTelephone : Bool
  optAutoRead : Bool
deriving DecidableEq

/-- Result of one engine step: the new state, the Signal callbacks fired
(in order), and the byte strings written to the serial port (in order). -/
structure StepResult where
  st : EngineState
  events : List Event
  writes : List (List Nat)
deriving DecidableEq

/-- Python truthiness of `self._previous_command` (None and b'' are
falsy). -/
def pyTruthy : Option (List Nat) → Bool
  | none => false
  | some b => !b.isEmpty

/-- The while loop of the READ_BINARY branch of `check_pending_command`:
keep consuming OK-terminated chunks from the buffer into `data` until
`has_read_binary_data(data)` holds or the buffer holds no further OK. -/
def readBinaryLoop (data buf : List Nat) : List Nat × List Nat :=
  match hf : bytesFind okBytes buf with
  | none => (data, buf)
  | some i =>
    if has_read_binary_data data then (data, buf)
    else readBinaryLoop (data ++ okBytes ++ buf.take i) (buf.drop (i + 2))
termination_by buf.length
decreasing_by
  have h1 := bytesFind_add_length_le okBytes buf i hf
  have h2 : okBytes.length = 2 := rfl
  simp only [List.length_drop]
  omega

/-- Source `IridiumCommunicator.check_pending_command`, as a function of
the engine state (the read buffer already holds any newly appended
message).  Each branch mirrors the source's dispatch on
`self._previous_command`; callbacks become events, serial writes become
entries of `writes`. -/
def check_pending_command (s : EngineState) : StepResult :=
  let buf := s.readBuf
  match bytesFind okBytes buf with
  | some idx =>
    let data := buf.take idx
    let buf1 := buf.drop (idx + 2)
    let prev := s.prevCmd.getD []
    if prev = systemTimeBytes then
      match parse_system_time data with
      | some t =>
        { st := { s with readBuf := buf1, prevCmd := none },
          events := [.systemTimeUpdated t, .commandFinished prev true data],
          writes := [] }
      | none =>
        { st := { s with readBuf := buf1, prevCmd := none },
          events := [.notificationEvent "Error" "Could not parse the system time response" "Could not parse the system time!",
                     .commandFinished prev false data],
          writes := [] }
    else if prev = serialNumberBytes then
      match parse_serial_number data with
      | some sn =>
        { st := { s with readBuf := buf1, prevCmd := none, serialNumber := sn },
          events := [.serialNumberUpdated sn, .commandFinished prev true data],
          writes := [] }
      | none =>
        { st := { s with readBuf := buf1, prevCmd := none },
          events := [.notificationEvent "Error" "Could not parse the serial number response" "Could not parse the serial number!",
                     .commandFinished prev false data],
          writes := [] }
    else if prev = signalQualityBytes then
      match parse_signal_quality data with
      | some q =>
        { st := { s with readBuf := buf1, prevCmd := none },
          events := [.signalQualityUpdated q, .commandFinished prev true data],
          writes := [] }
      | none =>
        { st := { s with readBuf := buf1, prevCmd := none },
          events := [.notificationEvent "Error" "Could not parse the signal quality response" "Could not parse the signal quality!",
                     .commandFinished prev false data],
          writes := [] }
    else if prev = checkRingBytes then
      match parse_check_ring data with
      | some (tri, sri) =>
        let seq1 :=
          if 0 < sri ∧ s.optTelephone = false ∧ s.optAutoRead = true then
            appendMax s.seqQueue sessionBytes
          else s.seqQueue
        { st := { s with readBuf := buf1, prevCmd := none, seqQueue := seq1 },
          events := [.checkRingUpdated tri sri, .commandFinished prev true data],
          writes := [] }
      | none =>
        { st := { s with readBuf := buf1, prevCmd := none },
          events := [.notificationEvent "Error" "Could not parse the check ring response" "Could not parse the check ring response!",
                     .commandFinished prev false data],
          writes := [] }
    else if prev = sessionBytes then
      match parse_session data with
      | some (mo, momsn, mts, mtmsn, mtlen, mtq) =>
        -- outgoing: 4 >= mo_status >= 0
        let outEvs :=
          if 0 ≤ mo ∧ mo ≤ 4 then [Event.messageTransferred momsn]
          else [Event.notificationEvent "Error" "Message Transfer Failed!" (moStatusText mo),
                Event.messageTransferFailed momsn]
        let seq1 :=
          if 0 ≤ mo ∧ mo ≤ 4 then appendMax s.seqQueue clearMoBufferBytes
          else s.seqQueue
        -- incoming: mt_status 1 with content, or mt_status > 1 (error)
        let inBranch :=
          if mts = 1 ∧ 0 < mtlen then
            (([] : List Event), appendMax seq1 readBinaryBytes, mtq, mtq, (0 : Nat))
          else if 1 < mts then
            let retry := mtq = 0 ∧ 1 < s.lastMtQueued ∧ s.lastMtRetry < 2
            ([Event.notificationEvent "Error" "Message Receive Failed!" (mtStatusText mts)],
             seq1,
             s.lastMtQueued,
             if retry then s.lastMtQueued else mtq,
             if retry then s.lastMtRetry + 1 else s.lastMtRetry)
          else ([], seq1, s.lastMtQueued, mtq, s.lastMtRetry)
        let inEvs := inBranch.1
        let seq2 := inBranch.2.1
        let lmq := inBranch.2.2.1
        let mtq2 := inBranch.2.2.2.1
        let lmr := inBranch.2.2.2.2
        let seq3 :=
          if 0 < mtq2 ∧ s.optAutoRead = true then appendMax seq2 sessionBytes
          else seq2
        { st := { s with readBuf := buf1, prevCmd := none, seqQueue := seq3,
                         lastMtQueued := lmq, lastMtRetry := lmr },
          events := outEvs ++ inEvs ++ [.commandFinished prev true data],
          writes := [] }
      | none =>
        { st := { s with readBuf := buf1, prevCmd := none },
          events := [.notificationEvent "Error" "Could not parse the session response" "Could not parse the session!",
                     .commandFinished prev false data],
          writes := [] }
    else if prev = readBinaryBytes then
      let p := readBinaryLoop data buf1
      if has_read_binary_data p.1 = false then
        -- not enough data: put everything back and return without
        -- clearing the pending command or firing any callback
        { st := { s with readBuf := p.1 ++ okBytes ++ p.2 },
          events := [], writes := [] }
      else
        match parse_read_binary p.1 with
        | some (msgLen, content, checksum, calcCheck) =>
          let ev :=
            if msgLen = content.length ∧ calcCheck = checksum then
              Event.messageReceived content
            else Event.messageReceiveFailed msgLen content checksum calcCheck
          { st := { s with readBuf := p.2, prevCmd := none },
            events := [ev, .commandFinished prev true p.1],
            writes := [] }
        | none =>
          { st := { s with readBuf := p.2, prevCmd := none },
            events := [.notificationEvent "Error" "Could not parse the read binary data" "Could not parse the read binary response!",
                       .commandFinished prev false p.1],
            writes := [] }
    else if prev = writeBinaryBytes then
      match parse_write_binary data with
      | some b =>
        { st := { s with readBuf := buf1, prevCmd := none },
          events := [.commandFinished prev b data], writes := [] }
      | none =>
        { st := { s with readBuf := buf1, prevCmd := none },
          events := [.notificationEvent "Error" "Could not parse the write binary response" "Could not parse the write binary response!",
                     .commandFinished prev false data],
          writes := [] }
    else if bytesContains clearBufferBytes prev then
      -- source slip kept as is: CLEAR_MO_BUFFER is stripped twice and
      -- CLEAR_MT_BUFFER never
      let resp := pyStrip (pyReplace clearBothBuffersBytes
        (pyReplace clearMoBufferBytes (pyReplace clearMoBufferBytes data)))
      { st := { s with readBuf := buf1, prevCmd := none },
        events := [.commandFinished prev (resp = [48]) data], writes := [] }
    else
      { st := { s with readBuf := buf1, prevCmd := none },
        events := [.commandFinished prev true data], writes := [] }
  | none =>
    -- elif READY in buf and READ_BINARY != previous_command
    match bytesFind readyBytes buf with
    | some idx =>
      if s.prevCmd.getD [] = readBinaryBytes then
        { st := s, events := [], writes := [] }
      else
        let data := buf.take idx
        let buf1 := buf.drop (idx + 5)
        let prev := s.prevCmd.getD []
        if writeBinaryBytes.isPrefixOf prev then
          match s.writeQueue with
          | msg :: rest =>
            { st := { s with readBuf := buf1, prevCmd := none, writeQueue := rest },
              events := [.commandFinished prev true data],
              writes := [msg ++ toBytes2 msg.sum] }
          | [] =>
            -- the source raises an uncaught IndexError from popleft here;
            -- the state keeps the mutations made before the raise
            { st := { s with readBuf := buf1 }, events := [], writes := [] }
        else
          { st := { s with readBuf := buf1, prevCmd := none },
            events := [.commandFinished prev true data], writes := [] }
    | none => { st := s, events := [], writes := [] }

/-- Source `IridiumCommunicator.check_unsolicited`. -/
def check_unsolicited (s : EngineState) : StepResult :=
  match bytesFind ringBytes s.readBuf with
  | some idx =>
    let buf1 := s.readBuf.drop (idx + 7)
    let seq1 :=
      if sessionBytes ∈ s.seqQueue then s.seqQueue
      else appendMax s.seqQueue sessionBytes
    { st := { s with readBuf := buf1, seqQueue := seq1 },
      events := [], writes := [] }
  | none =>
    match s.seqQueue with
    | c :: rest =>
      { st := { s with prevCmd := some c, seqQueue := rest, readBuf := [] },
        events := [], writes := [c ++ [13]] }
    | [] =>
      { st := { s with readBuf := ((pySplitlines s.readBuf).getLast?).getD s.readBuf },
        events := [], writes := [] }

/-- Source `IridiumCommunicator.check_io`: append the newly read bytes to
the buffer, then run the pending branch or the unsolicited branch. -/
def checkIo (s : EngineState) (message : List Nat) : StepResult :=
  let s1 := { s with readBuf := s.readBuf ++ message }
  if pyTruthy s.prevCmd then check_pending_command s1 else check_unsolicited s1

/-- Source property setter `previous_command`: the events it fires and the
value it stores, as a function of the current register value and the value
being assigned. -/
def previous_command_set (old newCmd : Option (List Nat)) :
    Option (List Nat) × List Event :=
  if pyTruthy old = true ∧ newCmd = none then
    (newCmd, [Event.commandFinished (old.getD []) true []])
  else if pyTruthy old = true then
    (newCmd, [Event.commandFinished (old.getD []) false []])
  else (newCmd, [])

/-- The READ_BINARY consumption loop only regroups the buffer: joining the
accumulated data, one OK marker, and the remaining buffer reproduces the
joined input. -/
theorem readBinaryLoop_join (data buf : List Nat) :
    (readBinaryLoop data buf).1 ++ okBytes ++ (readBinaryLoop data buf).2 =
      data ++ okBytes ++ buf := by
  induction data, buf using readBinaryLoop.induct with
  | case1 data buf hf =>
    rw [readBinaryLoop.eq_def]
    split
    · simp
    · rename_i i h'
      rw [hf] at h'
      cases h'
  | case2 data buf i hf hhas =>
    rw [readBinaryLoop.eq_def]
    split
    · simp
    · rename_i j h'
      rw [hf] at h'
      injection h' with h''
      subst h''
      rw [if_pos hhas]
  | case3 data buf i hf hhas ih =>
    rw [readBinaryLoop.eq_def]
    split
    · rename_i h'
      rw [hf] at h'
    · rename_i j h'
      rw [hf] at h'
      injection h' with h''
      subst h''
      rw [if_neg hhas]
      rw [ih]
      have hd := bytesFind_decomp okBytes buf i hf
      have hlen : okBytes.length = 2 := rfl
      rw [hlen] at hd
      conv_rhs => rw [hd]
      simp [List.append_assoc]

-- Well-founded definitions are unsealed so that concrete instances can be
-- settled by kernel reduction.
unseal pySplitlines pyReplace readBinaryLoop pySplitComma natToDecBytes

/-- A freshly constructed communicator: empty buffer and queues, no
pending command, default options (telephone off, auto_read on). -/
def idleState : EngineState :=
  { readBuf := [], prevCmd := none, seqQueue := [], writeQueue := [],
    serialNumber := [], lastMtQueued := 0, lastMtRetry := 0,
    optTelephone := false, optAutoRead := true }

/-- C4: with READ_BINARY pending and an OK in the buffer, if consuming
OK-terminated chunks never satisfies `has_read_binary_data`, the step
leaves the state unchanged apart from the appended message (the buffer is
restored exactly), keeps READ_BINARY pending, and fires no callback and
writes nothing. -/
theorem read_binary_defer (s : EngineState) (m : List Nat) (i : Nat)
    (hprev : s.prevCmd = some readBinaryBytes)
    (hfind : bytesFind okBytes (s.readBuf ++ m) = some i)
    (hdefer : has_read_binary_data
      (readBinaryLoop ((s.readBuf ++ m).take i) ((s.readBuf ++ m).drop (i + 2))).1 = false) :
    (checkIo s m).st = { s with readBuf := s.readBuf ++ m } ∧
    (checkIo s m).st.prevCmd = some readBinaryBytes ∧
    (checkIo s m).events = [] ∧ (checkIo s m).writes = [] := by
  have hjoin := readBinaryLoop_join ((s.readBuf ++ m).take i) ((s.readBuf ++ m).drop (i + 2))
  have hd := bytesFind_decomp okBytes (s.readBuf ++ m) i hfind
  have hmain : checkIo s m =
      { st := { s with readBuf := s.readBuf ++ m }, events := [], writes := [] } := by
    rw [checkIo]
    simp only [hprev]
    rw [if_pos (by decide)]
    rw [check_pending_command.eq_def]
    simp only [hfind]
    simp only [Option.getD_some]
    rw [if_neg (by decide), if_neg (by decide), if_neg (by decide), if_neg (by decide),
      if_neg (by decide)]
    simp only [if_true]
    rw [if_pos hdefer]
    have hb : (readBinaryLoop ((s.readBuf ++ m).take i) ((s.readBuf ++ m).drop (i + 2))).1 ++ okBytes ++
        (readBinaryLoop ((s.readBuf ++ m).take i) ((s.readBuf ++ m).drop (i + 2))).2 = s.readBuf ++ m := by
      rw [hjoin]
      conv_rhs => rw [hd]
      simp only [List.append_assoc]
      rfl
    simp only [hb]
  rw [hmain]
  refine ⟨rfl, ?_, rfl, rfl⟩
  simp [hprev]

/-- Witness for `read_binary_defer`: a split binary frame (length field 5
but only two content bytes before the OK). -/
theorem read_binary_defer_witness :
    (checkIo { idleState with prevCmd := some readBinaryBytes }
        [0, 5, 104, 101, 79, 75]).st.readBuf = [0, 5, 104, 101, 79, 75] ∧
    (checkIo { idleState with prevCmd := some readBinaryBytes }
        [0, 5, 104, 101, 79, 75]).st.prevCmd = some readBinaryBytes ∧
    (checkIo { idleState with prevCmd := some readBinaryBytes }
        [0, 5, 104, 101, 79, 75]).events = [] := by
  obtain ⟨h1, h2, h3, h4⟩ := read_binary_defer
    { idleState with prevCmd := some readBinaryBytes } [0, 5, 104, 101, 79, 75] 4
    rfl (by decide) (by decide)
  refine ⟨?_, h2, h3⟩
  rw [h1]
  rfl

theorem fromBytesBE_lenBytes2 (n : Nat) (h : n < 65536) :
    fromBytesBE (lenBytes2 n) = n := by
  simp only [fromBytesBE, lenBytes2, List.foldl]
  have h1 : n / 256 < 256 := by omega
  rw [Nat.mod_eq_of_lt h1]
  omega

/-- C2: for every content of length at most 340, `parse_read_binary` on
the frame  echo marker, 2-byte big-endian length, content, 2-byte
big-endian low-16-bit checksum  returns the length, the content, and the
checksum twice (received and recomputed). -/
theorem parse_read_binary_roundtrip (content : List Nat)
    (hlen : content.length ≤ 340) (hbytes : ∀ b ∈ content, b < 256) :
    parse_read_binary
        (readBinaryMarker ++ (lenBytes2 content.length ++ content ++ toBytes2 content.sum)) =
      some (content.length, content, toBytes2 content.sum, toBytes2 content.sum) := by
  have hfind : bytesFind readBinaryMarker
      (readBinaryMarker ++ (lenBytes2 content.length ++ content ++ toBytes2 content.sum)) = some 0 := by
    rw [bytesFind.eq_def]
    rw [if_pos (List.isPrefixOf_iff_prefix.mpr
      ⟨lenBytes2 content.length ++ content ++ toBytes2 content.sum, rfl⟩)]
  rw [parse_read_binary]
  simp only [hfind]
  have hdrop : (readBinaryMarker ++ (lenBytes2 content.length ++ content ++ toBytes2 content.sum)).drop (0 + 9) =
      lenBytes2 content.length ++ content ++ toBytes2 content.sum := by
    have h9 : (0 : Nat) + 9 = readBinaryMarker.length := rfl
    rw [h9, List.drop_left]
  rw [hdrop]
  have htake2 : (lenBytes2 content.length ++ content ++ toBytes2 content.sum).take 2 =
      lenBytes2 content.length := by
    rw [List.append_assoc]
    have h2 : (2 : Nat) = (lenBytes2 content.length).length := rfl
    rw [h2, List.take_left]
  rw [htake2]
  rw [fromBytesBE_lenBytes2 content.length (by omega)]
  have hdrop2 : (lenBytes2 content.length ++ content ++ toBytes2 content.sum).drop 2 =
      content ++ toBytes2 content.sum := by
    rw [List.append_assoc]
    have h2 : (2 : Nat) = (lenBytes2 content.length).length := rfl
    rw [h2, List.drop_left]
  rw [hdrop2]
  have htakec : (content ++ toBytes2 content.sum).take content.length = content :=
    List.take_left content (toBytes2 content.sum)
  rw [htakec]
  have hdropn : (lenBytes2 content.length ++ content ++ toBytes2 content.sum).drop (content.length + 2) =
      toBytes2 content.sum := by
    have h2 : content.length + 2 = (lenBytes2 content.length ++ content).length := by
      simp [lenBytes2]
    rw [h2, List.drop_left]
  rw [hdropn]
  have htk : (toBytes2 content.sum).take 2 = toBytes2 content.sum := rfl
  rw [htk]
  rw [if_neg (by simp [toBytes2])]

/-- Witness for `parse_read_binary_roundtrip` at content b'hello'
(sum 532 = 0x0214). -/
theorem parse_read_binary_roundtrip_witness :
    ([104, 101, 108, 108, 111] : List Nat).length ≤ 340 ∧
    parse_read_binary (readBinaryMarker ++
        (lenBytes2 ([104, 101, 108, 108, 111] : List Nat).length ++ [104, 101, 108, 108, 111] ++
          toBytes2 ([104, 101, 108, 108, 111] : List Nat).sum)) =
      some (([104, 101, 108, 108, 111] : List Nat).length, [104, 101, 108, 108, 111],
        toBytes2 ([104, 101, 108, 108, 111] : List Nat).sum,
        toBytes2 ([104, 101, 108, 108, 111] : List Nat).sum) :=
  ⟨by decide, parse_read_binary_roundtrip [104, 101, 108, 108, 111] (by decide) (by decide)⟩

/-- C8 counterexample: `parse_signal_quality` succeeds on b'+CSQ:7' and
returns 7, outside 0..=5 - the parser has no range check. -/
theorem parse_signal_quality_out_of_range :
    parse_signal_quality [43, 67, 83, 81, 58, 55] = some 7 ∧ ¬((7 : Int) ≤ 5) := by
  decide

/-- C8 amended: the parser returns exactly the decimal value of the token
after b'+CSQ:' with no range check; on a well-formed modem response
carrying a quality digit q with q at most 5, it succeeds and the result
lies in 0..=5. -/
theorem parse_signal_quality_in_range (q : Nat) (h : q ≤ 5) :
    parse_signal_quality ([43, 67, 83, 81, 58] ++ [48 + q] ++ [13, 10, 13, 10]) =
      some (q : Int) ∧ 0 ≤ (q : Int) ∧ (q : Int) ≤ 5 := by
  interval_cases q <;> exact ⟨by decide, by decide, by decide⟩

/-- Witness for `parse_signal_quality_in_range` at q = 3. -/
theorem parse_signal_quality_in_range_witness :
    parse_signal_quality ([43, 67, 83, 81, 58] ++ [48 + 3] ++ [13, 10, 13, 10]) =
      some ((3 : Nat) : Int) ∧ 0 ≤ ((3 : Nat) : Int) ∧ ((3 : Nat) : Int) ≤ 5 :=
  parse_signal_quality_in_range 3 (by decide)

/-- C10: the `previous_command` setter fires command_finished(old, True)
when a non-empty command is recorded and None is assigned,
command_finished(old, False) when another value is assigned over a
non-empty pending command, and nothing when no command is pending (the
register is None or the falsy b''), always storing the assigned value. -/
theorem previous_command_setter_events (old newCmd : Option (List Nat)) :
    (∀ c, old = some c → c ≠ [] → newCmd = none →
      previous_command_set old newCmd = (none, [Event.commandFinished c true []])) ∧
    (∀ c c2, old = some c → c ≠ [] → newCmd = some c2 →
      previous_command_set old newCmd = (some c2, [Event.commandFinished c false []])) ∧
    (pyTruthy old = false →
      previous_command_set old newCmd = (newCmd, [])) := by
  refine ⟨?_, ?_, ?_⟩
  · intro c hc hne hn
    subst hc
    subst hn
    rw [previous_command_set, if_pos ⟨by simp [pyTruthy, hne], rfl⟩]
    rfl
  · intro c c2 hc hne hn
    subst hc
    subst hn
    rw [previous_command_set, if_neg (by simp), if_pos (by simp [pyTruthy, hne])]
    rfl
  · intro hf
    rw [previous_command_set, if_neg (by simp [hf]), if_neg (by simp [hf])]

/-- Witness for `previous_command_setter_events`: completing a pending
ping fires command_finished(b'AT', True). -/
theorem previous_command_setter_events_witness :
    previous_command_set (some pingBytes) none =
      (none, [Event.commandFinished pingBytes true []]) :=
  (previous_command_setter_events (some pingBytes) none).1 pingBytes rfl (by decide) rfl

/-- C6, the response check the spec states as the intent: success iff the
payload with any of the three clear-buffer echoes removed strips to b'0'
(the source instead strips b'AT+SBDD0' twice and b'AT+SBDD1' never). -/
def clearResponseSuccessSpec (data : List Nat) : Bool :=
  pyStrip (pyReplace clearBothBuffersBytes
    (pyReplace clearMtBufferBytes (pyReplace clearMoBufferBytes data))) = [48]

/-- The payload a modem produces for a successful AT+SBDD1 with echo on:
the command echo, then b'0', then blank lines (the OK follows it in the
read buffer). -/
def clearMtResponse : List Nat := clearMtBufferBytes ++ [13, 13, 10, 48, 13, 10, 13, 10]

/-- C6: on a successful CLEAR_MT_BUFFER response carrying the echo, the
engine reports command_finished(AT+SBDD1, False) because the source strips
the AT+SBDD0 echo twice instead of AT+SBDD1; the check the spec intends
reports success on the same payload. -/
theorem clear_mt_buffer_echo_not_stripped :
    (checkIo { idleState with prevCmd := some clearMtBufferBytes }
        (clearMtResponse ++ okBytes ++ [13, 10])).events =
      [Event.commandFinished clearMtBufferBytes false clearMtResponse] ∧
    clearResponseSuccessSpec clearMtResponse = true := by
  decide

/-- The only Python exception kind the Command-catalog model needs. -/
inductive PyErr where
  | typeError
deriving DecidableEq

/-- Python `str.startswith` raises TypeError when its argument is a bytes
object.  `Command.all_commands` calls `name.startswith(b"_")` with `name`
a str yielded by `dir(cls)`, so every iteration raises. -/
def pyStrStartswithBytes (name : String) (pat : List Nat) : Except PyErr Bool :=
  Except.error PyErr.typeError

/-- A class attribute as seen through `getattr`: either a byte-string
constant or a method object (which never compares equal to bytes). -/
inductive PyAttr where
  | bytesVal (b : List Nat)
  | methodVal (name : String)
deriving DecidableEq

/-- The attribute names `dir(Command)` yields, in sorted order: the byte
constants, then the two classmethods.  The dunder names the real `dir()`
additionally returns all start with an underscore: under the source's test
they raise just like every other name, and under the corrected test they
are filtered out, so eliding them changes no theorem below. -/
def commandDirNames : List String :=
  ["CHECK_RING", "CLEAR_BOTH_BUFFERS", "CLEAR_BUFFER", "CLEAR_MO_BUFFER",
   "CLEAR_MT_BUFFER", "ECHO_BASE", "ECHO_OFF", "ECHO_ON", "FLOW_CONTROL_BASE",
   "FLOW_CONTROL_OFF", "FLOW_CONTROL_ON", "OK", "PING", "READY", "READ_BINARY",
   "READ_BINARY_RECEIVE", "REPEAT_LAST_COMMAND", "RETURN_ECHO",
   "RETURN_IDENTIFICATION", "RING", "RING_ALERTS_BASE", "RING_ALERTS_OFF",
   "RING_ALERTS_ON", "SERIAL_NUMBER", "SESSION", "SESSION_RECEIVE",
   "SIGNAL_QUALITY", "SYSTEM_TIME", "WRITE_BINARY", "all_commands", "is_command"]

/-- `getattr(Command, name)`. -/
def commandAttrValue (n : String) : PyAttr :=
  if n = "CHECK_RING" then .bytesVal checkRingBytes
  else if n = "CLEAR_BOTH_BUFFERS" then .bytesVal clearBothBuffersBytes
  else if n = "CLEAR_BUFFER" then .bytesVal clearBufferBytes
  else if n = "CLEAR_MO_BUFFER" then .bytesVal clearMoBufferBytes
  else if n = "CLEAR_MT_BUFFER" then .bytesVal clearMtBufferBytes
  else if n = "ECHO_BASE" then .bytesVal [65, 84, 69]
  else if n = "ECHO_OFF" then .bytesVal [65, 84, 69, 48]
  else if n = "ECHO_ON" then .bytesVal [65, 84, 69, 49]
  else if n = "FLOW_CONTROL_BASE" then .bytesVal [65, 84, 38, 75]
  else if n = "FLOW_CONTROL_OFF" then .bytesVal [65, 84, 38, 75, 48]
  else if n = "FLOW_CONTROL_ON" then .bytesVal [65, 84, 38, 75, 51]
  else if n = "OK" then .bytesVal okBytes
  else if n = "PING" then .bytesVal pingBytes
  else if n = "READY" then .bytesVal readyBytes
  else if n = "READ_BINARY" then .bytesVal readBinaryBytes
  else if n = "READ_BINARY_RECEIVE" then .bytesVal readBinaryMarker
  else if n = "REPEAT_LAST_COMMAND" then .bytesVal [65, 47]
  else if n = "RETURN_ECHO" then .bytesVal [69, 110]
  else if n = "RETURN_IDENTIFICATION" then .bytesVal [73, 110]
  else if n = "RING" then .bytesVal ringBytes
  else if n = "RING_ALERTS_BASE" then .bytesVal [65, 84, 43, 83, 66, 68, 77, 84, 65]
  else if n = "RING_ALERTS_OFF" then .bytesVal [65, 84, 43, 83, 66, 68, 77, 84, 65, 61, 48]
  else if n = "RING_ALERTS_ON" then .bytesVal [65, 84, 43, 83, 66, 68, 77, 84, 65, 61, 49]
  else if n = "SERIAL_NUMBER" then .bytesVal serialNumberBytes
  else if n = "SESSION" then .bytesVal sessionBytes
  else if n = "SESSION_RECEIVE" then .bytesVal [43, 83, 66, 68, 73, 88, 58]
  else if n = "SIGNAL_QUALITY" then .bytesVal signalQualityBytes
  else if n = "SYSTEM_TIME" then .bytesVal systemTimeBytes
  else if n = "WRITE_BINARY" then .bytesVal writeBinaryBytes
  else .methodVal n

/-- Source `Command.all_commands`, as written: the underscore filter uses
the bytes literal b"_", so exhausting the generator raises TypeError. -/
def all_commands_py : Except PyErr (List PyAttr) :=
  commandDirNames.foldlM
    (fun acc n => do
      let isUnd ← pyStrStartswithBytes n [95]
      if !isUnd && n != "OK" && n != "RING" && n != "READY" then
        pure (acc ++ [commandAttrValue n])
      else pure acc)
    []

/-- Source `Command.is_command`, as written (each membership test iterates
the generator, so each raises). -/
def is_command_py (data : List Nat) : Except PyErr Bool := do
  let cmds1 ← all_commands_py
  if PyAttr.bytesVal data ∈ cmds1 then pure true
  else do
    let cmds2 ← all_commands_py
    pure (PyAttr.bytesVal (data ++ [13]) ∈ cmds2)

/-- Python `name.startswith("_")` on an attribute name. -/
def strStartsUnderscore (n : String) : Bool :=
  match n.data with
  | c :: _ => c = '_'
  | [] => false

/-- `Command.all_commands` with only the evident slip corrected
(b"_" replaced by "_"). -/
def all_commands_fixed : List PyAttr :=
  (commandDirNames.filter (fun n =>
    !(strStartsUnderscore n) && n != "OK" && n != "RING" && n != "READY")).map
    commandAttrValue

/-- `Command.is_command` on top of `all_commands_fixed`.  The membership
test adds a carriage return to the probe instead of stripping one, so a
CR-terminated command still fails to match the CR-less catalog entries. -/
def is_command_fixed (data : List Nat) : Bool :=
  PyAttr.bytesVal data ∈ all_commands_fixed ||
    PyAttr.bytesVal (data ++ [13]) ∈ all_commands_fixed

deriving instance DecidableEq for Except

/-- C5: `Command.is_command` raises TypeError on every input because
`all_commands` applies `str.startswith` to the bytes b"_"; and even with
that slip fixed, commands with a trailing carriage return are not
recognised (the test appends a CR instead of stripping one), while the
bare forms are, and the three response markers are excluded. -/
theorem is_command_behaviour :
    is_command_py pingBytes = Except.error PyErr.typeError ∧
    is_command_py (pingBytes ++ [13]) = Except.error PyErr.typeError ∧
    is_command_py okBytes = Except.error PyErr.typeError ∧
    is_command_fixed pingBytes = true ∧
    is_command_fixed sessionBytes = true ∧
    is_command_fixed [65, 84, 69, 48] = true ∧
    is_command_fixed readBinaryBytes = true ∧
    is_command_fixed (pingBytes ++ [13]) = false ∧
    is_command_fixed (sessionBytes ++ [13]) = false ∧
    is_command_fixed okBytes = false ∧
    is_command_fixed ringBytes = false ∧
    is_command_fixed readyBytes = false := by
  decide

/-- C3: when a pending SESSION completes (OK consumed, parse_session
succeeds), mo_status in 0..=4 appends CLEAR_MO_BUFFER to the sequential
queue (possibly followed by the READ_BINARY and SESSION follow-ups) and
fires message_transferred(mo_msn); any other mo_status fires
message_transfer_failed(mo_msn) together with an Error notification
carrying the MO_STATUS table text (default "Unknown failure!"). -/
theorem session_outgoing (s : EngineState) (m : List Nat) (i : Nat)
    (mo momsn mts mtmsn mtlen mtq : Int)
    (hprev : s.prevCmd = some sessionBytes)
    (hfind : bytesFind okBytes (s.readBuf ++ m) = some i)
    (hparse : parse_session ((s.readBuf ++ m).take i) =
      some (mo, momsn, mts, mtmsn, mtlen, mtq)) :
    (0 ≤ mo ∧ mo ≤ 4 →
      (∃ more, (checkIo s m).st.seqQueue =
        (clearMoBufferBytes :: more).foldl appendMax s.seqQueue) ∧
      Event.messageTransferred momsn ∈ (checkIo s m).events) ∧
    (¬(0 ≤ mo ∧ mo ≤ 4) →
      Event.messageTransferFailed momsn ∈ (checkIo s m).events ∧
      Event.notificationEvent "Error" "Message Transfer Failed!" (moStatusText mo) ∈
        (checkIo s m).events) := by
  rw [checkIo]
  simp only [hprev]
  rw [if_pos (by decide)]
  rw [check_pending_command.eq_def]
  simp only [hfind, Option.getD_some]
  rw [if_neg (by decide), if_neg (by decide), if_neg (by decide), if_neg (by decide)]
  simp only [if_true]
  simp only [hparse]
  constructor
  · intro h04
    rw [if_pos h04, if_pos h04]
    constructor
    · by_cases hmt : mts = 1 ∧ 0 < mtlen
      · rw [if_pos hmt]
        by_cases hq : 0 < mtq ∧ s.optAutoRead = true
        · rw [if_pos hq]
          exact ⟨[readBinaryBytes, sessionBytes], rfl⟩
        · rw [if_neg hq]
          exact ⟨[readBinaryBytes], rfl⟩
      · rw [if_neg hmt]
        by_cases hmt2 : 1 < mts
        · rw [if_pos hmt2]
          by_cases hq : 0 < (if mtq = 0 ∧ 1 < s.lastMtQueued ∧ s.lastMtRetry < 2 then s.lastMtQueued else mtq) ∧ s.optAutoRead = true
          · rw [if_pos hq]
            exact ⟨[sessionBytes], rfl⟩
          · rw [if_neg hq]
            exact ⟨[], rfl⟩
        · rw [if_neg hmt2]
          by_cases hq : 0 < mtq ∧ s.optAutoRead = true
          · rw [if_pos hq]
            exact ⟨[sessionBytes], rfl⟩
          · rw [if_neg hq]
            exact ⟨[], rfl⟩
    · simp
  · intro h04
    rw [if_neg h04]
    constructor
    · simp
    · simp

/-- State and message for the `session_outgoing` witness. -/
def sessionDemoState : EngineState := { idleState with prevCmd := some sessionBytes }

/-- b'+SBDIX: 0,5,0,0,0,0\r\nOK\r\n'. -/
def sessionDemoMsg : List Nat :=
  [43, 83, 66, 68, 73, 88, 58, 32, 48, 44, 53, 44, 48, 44, 48, 44, 48, 44, 48,
   13, 10, 79, 75, 13, 10]

/-- Witness for `session_outgoing`: mo_status 0, mo_msn 5. -/
theorem session_outgoing_witness :
    (∃ more, (checkIo sessionDemoState sessionDemoMsg).st.seqQueue =
      (clearMoBufferBytes :: more).foldl appendMax sessionDemoState.seqQueue) ∧
    Event.messageTransferred 5 ∈ (checkIo sessionDemoState sessionDemoMsg).events :=
  (session_outgoing sessionDemoState sessionDemoMsg 21 0 5 0 0 0 0
    rfl (by decide) (by decide)).1 (by decide)

/-- The mutable fields of the IridiumServer emulator that `check_incoming`
reads or writes. -/
structure ServerState where
  readBuf : List Nat
  writeQueue : List (List Nat)
  readHistory : List (List Nat)
  serialNumber : List Nat
  sessionCounter : Nat
  signalQuality : Nat
  moStatus : Nat
  mtMsn : Nat
  optEcho : Bool
  optFlowControl : Bool
  optRingAlerts : Bool
deriving DecidableEq

/-- Source `IridiumServer.check_incoming`: dispatch one CR-terminated
command and produce the new state and the byte strings written to the
serial port.  The two branches whose behaviour depends on effects outside
the state (SYSTEM_TIME reads the wall clock, WRITE_BINARY reads further
serial input with a timeout) are left unmodelled as `none`; no theorem
depends on them.  `echo_command` writes the echo only when the echo
option is on. -/
def server_check_incoming (st : ServerState) (cmd : List Nat) :
    Option (ServerState × List (List Nat)) :=
  let echoOf : Bool → List (List Nat) := fun e => if e then [cmd ++ [13, 10]] else []
  let okLine : List Nat := okBytes ++ [13, 10]
  if cmd = pingBytes ++ [13] then
    some (st, echoOf st.optEcho ++ [okLine])
  else if cmd = [65, 84, 69, 49] ++ [13] then          -- ECHO_ON
    some ({ st with optEcho := true }, echoOf true ++ [okLine])
  else if cmd = [65, 84, 69, 48] ++ [13] then          -- ECHO_OFF: no echo
    some ({ st with optEcho := false }, [okLine])
  else if cmd = [65, 84, 38, 75, 51] ++ [13] then      -- FLOW_CONTROL_ON
    some ({ st with optFlowControl := true }, echoOf st.optEcho ++ [okLine])
  else if cmd = [65, 84, 38, 75, 48] ++ [13] then      -- FLOW_CONTROL_OFF
    some ({ st with optFlowControl := false }, echoOf st.optEcho ++ [okLine])
  else if cmd = [65, 84, 43, 83, 66, 68, 77, 84, 65, 61, 49] ++ [13] then  -- RING_ALERTS_ON
    some ({ st with optRingAlerts := true }, echoOf st.optEcho ++ [okLine])
  else if cmd = [65, 84, 43, 83, 66, 68, 77, 84, 65, 61, 48] ++ [13] then  -- RING_ALERTS_OFF
    some ({ st with optRingAlerts := false }, echoOf st.optEcho ++ [okLine])
  else if cmd = [65, 47] ++ [13] then                  -- REPEAT_LAST_COMMAND
    if st.readHistory.isEmpty then none                -- popping empty history raises
    else
      let h1 := st.readHistory.dropLast
      match h1.getLast? with
      | some prevMsg =>
        some ({ st with readHistory := h1 },
          echoOf st.optEcho ++ [prevMsg ++ [13, 10, 13, 10], okLine])
      | none => none                                   -- indexing empty history raises
  else if cmd = [69, 110] ++ [13] then                 -- RETURN_ECHO
    some (st, echoOf st.optEcho ++
      [[48 + (if st.optEcho then 1 else 0)] ++ [13, 10, 13, 10], okLine])
  else if cmd = [73, 110] ++ [13] then                 -- RETURN_IDENTIFICATION
    some (st, echoOf st.optEcho ++ [[52, 13, 10, 13, 10], okLine])
  else if cmd = systemTimeBytes ++ [13] then
    none                                               -- reads the wall clock
  else if cmd = signalQualityBytes ++ [13] then
    some (st, echoOf st.optEcho ++
      [[43, 67, 83, 81, 58] ++ natToDecBytes st.signalQuality ++ [13, 10, 13, 10], okLine])
  else if cmd = serialNumberBytes ++ [13] then
    some (st, echoOf st.optEcho ++ [st.serialNumber ++ [13, 10, 13, 10], okLine])
  else if cmd = clearMoBufferBytes ++ [13] then
    some (st, echoOf st.optEcho ++ [[48, 13, 10, 13, 10], okLine])
  else if cmd = checkRingBytes ++ [13] then
    some (st, echoOf st.optEcho ++
      [[43, 67, 82, 73, 83, 58, 32, 48, 44] ++ natToDecBytes st.writeQueue.length ++
        [13, 10, 13, 10], okLine])
  else if cmd = sessionBytes ++ [13] then
    let mtStatus : Nat := if 0 < st.writeQueue.length then 1 else 0
    let p : Nat × Nat :=
      match st.writeQueue with
      | q0 :: _ => (q0.length, st.writeQueue.length - 1)
      | [] => (0, 0)
    let msg := [43, 83, 66, 68, 73, 88, 58, 32] ++
      natToDecBytes st.moStatus ++ [44] ++
      natToDecBytes st.sessionCounter ++ [44] ++
      natToDecBytes mtStatus ++ [44] ++
      natToDecBytes st.mtMsn ++ [44] ++
      natToDecBytes p.1 ++ [44] ++
      natToDecBytes p.2 ++ [13, 10, 13, 10]
    some ({ st with sessionCounter := (st.sessionCounter + 1) &&& 65535,
                    mtMsn := (st.mtMsn + 1) &&& 65535,
                    moStatus := 0 },
      echoOf st.optEcho ++ [msg, okLine])
  else if cmd = readBinaryBytes ++ [13] then           -- no echo in this branch
    match st.writeQueue with
    | msg :: rest =>
      some ({ st with writeQueue := rest },
        [readBinaryMarker ++ lenBytes2 msg.length ++ msg ++ toBytes2 msg.sum ++
          [13, 10, 13, 10], okLine])
    | [] => some (st, [okLine])
  else if writeBinaryBytes.isPrefixOf cmd then
    none                                               -- reads further serial input
  else if st.readBuf.getLast? = some 13 then           -- message with no action
    some (st, echoOf st.optEcho ++ [okLine])
  else
    some (st, [])

/-- C9: on b'AT+SBDIX\r' the emulator writes (after the optional echo) a
+SBDIX: line whose six fields are mo_status, session_counter, mt_status,
mt_msn, mt_len and queue_len - with mt_status 1 exactly when the write
queue is non-empty, mt_len the length of the queue head (0 when empty)
and queue_len = max(len(write_queue) - 1, 0), which for natural-number
subtraction is len - 1 - followed by OK; afterwards session_counter and
mt_msn are incremented modulo 0x10000 and mo_status is reset to 0. -/
theorem server_session_response (st : ServerState) :
    server_check_incoming st (sessionBytes ++ [13]) =
      some ({ st with sessionCounter := (st.sessionCounter + 1) % 65536,
                      mtMsn := (st.mtMsn + 1) % 65536,
                      moStatus := 0 },
        (if st.optEcho then [sessionBytes ++ [13] ++ [13, 10]] else []) ++
        [[43, 83, 66, 68, 73, 88, 58, 32] ++
          natToDecBytes st.moStatus ++ [44] ++
          natToDecBytes st.sessionCounter ++ [44] ++
          natToDecBytes (if st.writeQueue = [] then 0 else 1) ++ [44] ++
          natToDecBytes st.mtMsn ++ [44] ++
          natToDecBytes ((st.writeQueue.head?.map List.length).getD 0) ++ [44] ++
          natToDecBytes (st.writeQueue.length - 1) ++ [13, 10, 13, 10],
         okBytes ++ [13, 10]]) := by
  rw [server_check_incoming]
  rw [if_neg (by decide), if_neg (by decide), if_neg (by decide), if_neg (by decide),
    if_neg (by decide), if_neg (by decide), if_neg (by decide), if_neg (by decide),
    if_neg (by decide), if_neg (by decide), if_neg (by decide), if_neg (by decide),
    if_neg (by decide), if_neg (by decide), if_neg (by decide)]
  rw [if_pos rfl]
  have hmod1 : (st.sessionCounter + 1) &&& 65535 = (st.sessionCounter + 1) % 65536 :=
    Nat.and_pow_two_sub_one_eq_mod (st.sessionCounter + 1) 16
  have hmod2 : (st.mtMsn + 1) &&& 65535 = (st.mtMsn + 1) % 65536 :=
    Nat.and_pow_two_sub_one_eq_mod (st.mtMsn + 1) 16
  rw [hmod1, hmod2]
  cases hq : st.writeQueue with
  | nil => simp
  | cons q0 qs => simp

theorem appendMax_len_le2 (q : List (List Nat)) (c1 c2 : List Nat) :
    q.length ≤ (appendMax (appendMax q c1) c2).length :=
  le_trans (appendMax_length_ge q c1) (appendMax_length_ge (appendMax q c1) c2)

theorem appendMax_len_le3 (q : List (List Nat)) (c1 c2 c3 : List Nat) :
    q.length ≤ (appendMax (appendMax (appendMax q c1) c2) c3).length :=
  le_trans (appendMax_len_le2 q c1 c2) (appendMax_length_ge (appendMax (appendMax q c1) c2) c3)

/-- The pending branch never pops the sequential queue: every branch of
`check_pending_command` leaves the queue unchanged or appends to it. -/
theorem check_pending_seq_mono (s : EngineState) :
    s.seqQueue.length ≤ (check_pending_command s).st.seqQueue.length := by
  rcases hOK : bytesFind okBytes s.readBuf with _ | idx
  · rcases hR : bytesFind readyBytes s.readBuf with _ | j
    · simp [check_pending_command.eq_def, hOK, hR]
    · simp only [check_pending_command.eq_def, hOK, hR]
      repeat' split
      all_goals simp
  · simp only [check_pending_command.eq_def, hOK]
    by_cases h1 : s.prevCmd.getD [] = systemTimeBytes
    · rw [if_pos h1]
      cases parse_system_time (List.take idx s.readBuf) <;> simp
    · rw [if_neg h1]
      by_cases h2 : s.prevCmd.getD [] = serialNumberBytes
      · rw [if_pos h2]
        cases parse_serial_number (List.take idx s.readBuf) <;> simp
      · rw [if_neg h2]
        by_cases h3 : s.prevCmd.getD [] = signalQualityBytes
        · rw [if_pos h3]
          cases parse_signal_quality (List.take idx s.readBuf) <;> simp
        · rw [if_neg h3]
          by_cases h4 : s.prevCmd.getD [] = checkRingBytes
          · rw [if_pos h4]
            rcases parse_check_ring (List.take idx s.readBuf) with _ | ⟨tri, sri⟩
            · simp
            · simp only []
              split
              all_goals try simp
              all_goals try exact appendMax_length_ge _ _
          · rw [if_neg h4]
            by_cases h5 : s.prevCmd.getD [] = sessionBytes
            · rw [if_pos h5]
              rcases parse_session (List.take idx s.readBuf) with _ |
                ⟨mo, momsn, mts, mtmsn, mtlen, mtq⟩
              · simp
              · simp only []
                repeat' split
                all_goals try simp
                all_goals try exact appendMax_length_ge _ _
                all_goals try exact appendMax_len_le2 _ _ _
                all_goals try exact appendMax_len_le3 _ _ _ _
            · rw [if_neg h5]
              by_cases h6 : s.prevCmd.getD [] = readBinaryBytes
              · rw [if_pos h6]
                repeat' split
                all_goals simp
              · rw [if_neg h6]
                by_cases h7 : s.prevCmd.getD [] = writeBinaryBytes
                · rw [if_pos h7]
                  cases parse_write_binary (List.take idx s.readBuf) <;> simp
                · rw [if_neg h7]
                  by_cases h8 : bytesContains clearBufferBytes (s.prevCmd.getD []) = true
                  · rw [if_pos h8]
                  · rw [if_neg h8]

/-- C1, engine-step invariant: the sequential write queue shrinks (is
popped) in a step only when no command was pending and no SBDRING marker
was found in the read buffer for that step, and the popped head is the
command promoted to pending and written to the port; conversely the only
way a step turns the empty pending register into a non-empty one is that
same pop.  (At most one command is pending at any instant by construction:
the register is a single optional value.) -/
theorem seq_queue_pop_only_when_idle (s : EngineState) (m : List Nat) :
    ((checkIo s m).st.seqQueue.length < s.seqQueue.length →
      pyTruthy s.prevCmd = false ∧
      bytesFind ringBytes (s.readBuf ++ m) = none ∧
      ∃ c rest, s.seqQueue = c :: rest ∧
        (checkIo s m).st.prevCmd = some c ∧
        (checkIo s m).st.seqQueue = rest ∧
        (checkIo s m).writes = [c ++ [13]]) ∧
    (pyTruthy s.prevCmd = false → pyTruthy (checkIo s m).st.prevCmd = true →
      bytesFind ringBytes (s.readBuf ++ m) = none ∧
      ∃ c rest, s.seqQueue = c :: rest ∧ (checkIo s m).st.prevCmd = some c) := by
  rw [checkIo]
  by_cases hp : pyTruthy s.prevCmd = true
  · rw [if_pos hp]
    constructor
    · intro hlt
      exfalso
      have hmono := check_pending_seq_mono { s with readBuf := s.readBuf ++ m }
      simp only at hmono
      omega
    · intro hf
      rw [hp] at hf
      cases hf
  · have hp' : pyTruthy s.prevCmd = false := by simpa using hp
    rw [if_neg hp]
    rcases hR : bytesFind ringBytes (s.readBuf ++ m) with _ | idx
    · cases hq : s.seqQueue with
      | nil =>
        refine ⟨fun hlt => ?_, fun h1 h2 => ?_⟩
        · exfalso
          simp [check_unsolicited, hR] at hlt
        · exfalso
          simp [check_unsolicited, hR, hp'] at h2
      | cons c rest =>
        refine ⟨fun hlt => ⟨hp', rfl, c, rest, rfl, ?_, ?_, ?_⟩,
                fun h1 h2 => ⟨rfl, c, rest, rfl, ?_⟩⟩
        all_goals simp [check_unsolicited, hR]
    · refine ⟨fun hlt => ?_, fun h1 h2 => ?_⟩
      · exfalso
        simp only [check_unsolicited, hR] at hlt
        split at hlt
        · simp at hlt
        · have hA := appendMax_length_ge s.seqQueue sessionBytes
          omega
      · exfalso
        simp [check_unsolicited, hR, hp'] at h2

/-- State for the `seq_queue_pop_only_when_idle` witness: idle engine with
one queued ping. -/
def popDemoState : EngineState := { idleState with seqQueue := [pingBytes] }

/-- Witness for `seq_queue_pop_only_when_idle`: the queued ping is
promoted to pending and written followed by a carriage return. -/
theorem seq_queue_pop_only_when_idle_witness :
    pyTruthy popDemoState.prevCmd = false ∧
    bytesFind ringBytes (popDemoState.readBuf ++ []) = none ∧
    ∃ c rest, popDemoState.seqQueue = c :: rest ∧
      (checkIo popDemoState []).st.prevCmd = some c ∧
      (checkIo popDemoState []).st.seqQueue = rest ∧
      (checkIo popDemoState []).writes = [c ++ [13]] :=
  (seq_queue_pop_only_when_idle popDemoState []).1 (by decide)

/-- A byte that is not a line boundary. -/
def lineFree (b : Nat) : Bool := b != 10 && b != 13

/-- On a reversed byte string: remove the line terminator of the final
line, when the (un-reversed) string ends with LF, CRLF or CR. -/
def stripOneBoundaryRev (r : List Nat) : List Nat :=
  match r with
  | 10 :: t => if t.head? = some 13 then t.tail else t
  | 13 :: t => t
  | t => t

/-- Direct description of the last element of `pySplitlines`: drop one
trailing line boundary if present, then keep the longest boundary-free
suffix.  This is the content after the last line boundary or, when the
string ends with a boundary, the final line without its terminator. -/
def pyLastLine (s : List Nat) : List Nat :=
  ((stripOneBoundaryRev s.reverse).takeWhile lineFree).reverse

theorem strip_cons_10 (t : List Nat) :
    stripOneBoundaryRev (10 :: t) = if t.head? = some 13 then t.tail else t := rfl

theorem strip_cons_13 (t : List Nat) : stripOneBoundaryRev (13 :: t) = t := rfl

theorem strip_other (c : Nat) (t : List Nat) (h10 : c ≠ 10) (h13 : c ≠ 13) :
    stripOneBoundaryRev (c :: t) = c :: t := by
  rw [stripOneBoundaryRev.eq_def]
  split
  · rename_i heq
    injection heq with h1 h2
    exact absurd h1 h10
  · rename_i heq
    injection heq with h1 h2
    exact absurd h1 h13
  · rfl

theorem takeWhile_append_stop (p : Nat → Bool) (u w : List Nat) (c : Nat)
    (hw : w.head? = some c) (hc : p c = false) :
    (u ++ w).takeWhile p = u.takeWhile p := by
  induction u with
  | nil =>
    cases w with
    | nil => simp at hw
    | cons x t =>
      injection hw with h'
      subst h'
      simp [List.takeWhile_cons, hc]
  | cons a t ih =>
    simp only [List.cons_append, List.takeWhile_cons]
    cases hpa : p a <;> simp [hpa, ih]

theorem takeWhile_of_all (p : Nat → Bool) (u : List Nat) (h : u.all p = true) :
    u.takeWhile p = u := by
  induction u with
  | nil => rfl
  | cons a t ih =>
    simp only [List.all_cons, Bool.and_eq_true] at h
    simp [List.takeWhile_cons, h.1, ih h.2]

theorem stripOneBoundaryRev_append (x w : List Nat) (hx : x ≠ [])
    (hw : ¬(x = [10] ∧ w.head? = some 13)) :
    ∃ u, stripOneBoundaryRev (x ++ w) = u ++ w ∧ stripOneBoundaryRev x = u := by
  cases x with
  | nil => exact absurd rfl hx
  | cons c t' =>
    by_cases hc10 : c = 10
    · subst hc10
      cases t' with
      | nil =>
        have hw13 : w.head? ≠ some 13 := fun hcon => hw ⟨rfl, hcon⟩
        refine ⟨[], ?_, rfl⟩
        show stripOneBoundaryRev (10 :: w) = [] ++ w
        rw [strip_cons_10, if_neg hw13]
        rfl
      | cons d t'' =>
        by_cases hd : d = 13
        · subst hd
          exact ⟨t'', rfl, rfl⟩
        · refine ⟨d :: t'', ?_, ?_⟩
          · show stripOneBoundaryRev (10 :: d :: (t'' ++ w)) = (d :: t'') ++ w
            rw [strip_cons_10, if_neg (by simp [hd])]
            rfl
          · rw [strip_cons_10, if_neg (by simp [hd])]
    · by_cases hc13 : c = 13
      · subst hc13
        exact ⟨t', rfl, rfl⟩
      · refine ⟨c :: t', ?_, ?_⟩
        · show stripOneBoundaryRev (c :: (t' ++ w)) = (c :: t') ++ w
          rw [strip_other c (t' ++ w) hc10 hc13]
          rfl
        · rw [strip_other c t' hc10 hc13]

theorem pyLastLine_of_free (a : List Nat) (h : a.all lineFree = true) :
    pyLastLine a = a := by
  rw [pyLastLine]
  have hrev : a.reverse.all lineFree = true := by simpa using h
  cases hr : a.reverse with
  | nil =>
    have ha : a = [] := by
      have := congrArg List.reverse hr
      simpa using this
    subst ha
    rfl
  | cons c t =>
    have hc : lineFree c = true := by
      rw [hr] at hrev
      simp only [List.all_cons, Bool.and_eq_true] at hrev
      exact hrev.1
    have hc' : c ≠ 10 ∧ c ≠ 13 := by
      simp [lineFree] at hc
      exact hc
    rw [strip_other c t hc'.1 hc'.2]
    rw [← hr]
    rw [takeWhile_of_all _ _ hrev]
    rw [List.reverse_reverse]

theorem pyLastLine_append (a br rest : List Nat)
    (hbr : br = [10] ∨ br = [13, 10] ∨ (br = [13] ∧ rest.head? ≠ some 10))
    (hrest : rest ≠ []) :
    pyLastLine (a ++ (br ++ rest)) = pyLastLine rest := by
  have hrev : (a ++ (br ++ rest)).reverse = rest.reverse ++ (br.reverse ++ a.reverse) := by
    simp [List.reverse_append]
  obtain ⟨c0, hc0, hc0f⟩ : ∃ c0, (br.reverse ++ a.reverse).head? = some c0 ∧
      lineFree c0 = false := by
    rcases hbr with h | h | ⟨h, _⟩ <;> subst h
    · exact ⟨10, by simp, by simp [lineFree]⟩
    · exact ⟨10, by simp, by simp [lineFree]⟩
    · exact ⟨13, by simp, by simp [lineFree]⟩
  have hx : rest.reverse ≠ [] := by
    intro hcon
    apply hrest
    have := congrArg List.reverse hcon
    simpa using this
  have hw : ¬(rest.reverse = [10] ∧ (br.reverse ++ a.reverse).head? = some 13) := by
    rintro ⟨h1, h2⟩
    have hrest10 : rest = [10] := by
      have := congrArg List.reverse h1
      simpa using this
    rcases hbr with h | h | ⟨h, hten⟩
    · subst h
      simp at h2
    · subst h
      simp at h2
    · subst h
      rw [hrest10] at hten
      simp at hten
  obtain ⟨u, hu1, hu2⟩ := stripOneBoundaryRev_append rest.reverse
    (br.reverse ++ a.reverse) hx hw
  rw [pyLastLine, hrev, hu1, takeWhile_append_stop lineFree u _ c0 hc0 hc0f,
    pyLastLine, hu2]

theorem findLineBreak_none_free :
    ∀ (s : List Nat), findLineBreak s = none → s.all lineFree = true := by
  intro s
  induction s with
  | nil => intro h; rfl
  | cons b t ih =>
    intro h
    rw [findLineBreak] at h
    split at h
    · split at h <;> cases h
    · split at h
      · cases h
      · rename_i h13 h10
        simp only [Option.map_eq_none'] at h
        simp [List.all_cons, lineFree, h13, h10, ih h]

theorem findLineBreak_decomp :
    ∀ (s : List Nat) (i k : Nat), findLineBreak s = some (i, k) →
      ∃ a br rest, s = a ++ (br ++ rest) ∧ a.all lineFree = true ∧
        a.length = i ∧ br.length = k ∧
        (br = [10] ∨ br = [13, 10] ∨ (br = [13] ∧ rest.head? ≠ some 10)) := by
  intro s
  induction s with
  | nil => intro i k h; simp [findLineBreak] at h
  | cons b t ih =>
    intro i k h
    rw [findLineBreak] at h
    split at h
    · rename_i hb13
      split at h
      · rename_i hh
        simp only [Option.some.injEq, Prod.mk.injEq] at h
        obtain ⟨rfl, rfl⟩ := h
        subst hb13
        cases t with
        | nil => simp at hh
        | cons x t' =>
          simp only [List.head?_cons, Option.some.injEq] at hh
          subst hh
          exact ⟨[], [13, 10], t', by simp, rfl, rfl, rfl, Or.inr (Or.inl rfl)⟩
      · rename_i hh
        simp only [Option.some.injEq, Prod.mk.injEq] at h
        obtain ⟨rfl, rfl⟩ := h
        subst hb13
        exact ⟨[], [13], t, by simp, rfl, rfl, rfl,
          Or.inr (Or.inr ⟨rfl, by simpa using hh⟩)⟩
    · rename_i hb13
      split at h
      · rename_i hb10
        simp only [Option.some.injEq, Prod.mk.injEq] at h
        obtain ⟨rfl, rfl⟩ := h
        subst hb10
        exact ⟨[], [10], t, by simp, rfl, rfl, rfl, Or.inl rfl⟩
      · rename_i hb10
        simp only [Option.map_eq_some'] at h
        obtain ⟨⟨i', k'⟩, hik, h2⟩ := h
        simp only [Prod.mk.injEq] at h2
        obtain ⟨rfl, rfl⟩ := h2
        obtain ⟨a, br, rest, hs, hfree, hlen, hblen, hshape⟩ := ih i' k' hik
        refine ⟨b :: a, br, rest, by simp [hs], ?_, by simp [hlen], hblen, hshape⟩
        simp [List.all_cons, lineFree, hb13, hb10, hfree]

theorem pySplitlines_ne_nil (s : List Nat) (h : s ≠ []) : pySplitlines s ≠ [] := by
  rw [pySplitlines.eq_def]
  split
  · simp [h]
  · simp

theorem pyLastLine_append_boundary (a br : List Nat) (hfree : a.all lineFree = true)
    (hbr : br = [10] ∨ br = [13, 10] ∨ br = [13]) :
    pyLastLine (a ++ br) = a := by
  have hrevall : a.reverse.all lineFree = true := by simpa using hfree
  have h13 : a.reverse.head? ≠ some 13 := by
    intro hcon
    cases hr : a.reverse with
    | nil => rw [hr] at hcon; cases hcon
    | cons c t =>
      rw [hr] at hcon
      injection hcon with hc
      subst hc
      have hmem : (13 : Nat) ∈ a := by
        rw [← List.mem_reverse, hr]
        simp
      have := List.all_eq_true.mp hfree _ hmem
      simp [lineFree] at this
  rcases hbr with h | h | h <;> subst h <;> rw [pyLastLine]
  · have hrv : (a ++ [10]).reverse = 10 :: a.reverse := by simp
    rw [hrv, strip_cons_10, if_neg h13, takeWhile_of_all _ _ hrevall,
      List.reverse_reverse]
  · have hrv : (a ++ [13, 10]).reverse = 10 :: 13 :: a.reverse := by simp
    rw [hrv, strip_cons_10, if_pos (by simp)]
    simp only [List.tail_cons]
    rw [takeWhile_of_all _ _ hrevall, List.reverse_reverse]
  · have hrv : (a ++ [13]).reverse = 13 :: a.reverse := by simp
    rw [hrv, strip_cons_13, takeWhile_of_all _ _ hrevall, List.reverse_reverse]

/-- The operational buffer trim of the source, `splitlines()[-1]` with the
buffer kept on IndexError, computes exactly `pyLastLine`. -/
theorem pySplitlines_getLast (s : List Nat) :
    ((pySplitlines s).getLast?).getD s = pyLastLine s := by
  induction s using pySplitlines.induct with
  | case1 hf => rfl
  | case2 x hf hne =>
    rw [pySplitlines.eq_def]
    split
    · rw [if_neg hne]
      simp only [List.getLast?_singleton, Option.getD_some]
      exact (pyLastLine_of_free x (findLineBreak_none_free x hf)).symm
    · rename_i i k heq
      rw [hf] at heq
      cases heq
  | case3 x i k hf ih =>
    obtain ⟨a, br, rest, hs, hfree, hlen, hblen, hshape⟩ := findLineBreak_decomp x i k hf
    have hta : x.take i = a := by
      rw [hs, ← hlen]
      exact List.take_left a (br ++ rest)
    have htr : x.drop (i + k) = rest := by
      rw [hs, ← hlen, ← hblen]
      have hl : a.length + br.length = (a ++ br).length := by simp
      rw [hl, ← List.append_assoc]
      exact List.drop_left (a ++ br) rest
    rw [pySplitlines.eq_def]
    split
    · rename_i heq
      rw [hf] at heq
      cases heq
    · rename_i i' k' heq
      rw [hf] at heq
      simp only [Option.some.injEq, Prod.mk.injEq] at heq
      obtain ⟨rfl, rfl⟩ := heq
      rw [htr, hta]
      by_cases hrest : rest = []
      · subst hrest
        have hempty : pySplitlines ([] : List Nat) = [] := rfl
        rw [hempty]
        simp only [List.getLast?_singleton, Option.getD_some]
        conv_rhs => rw [hs]
        simp only [List.append_nil]
        have hshape' : br = [10] ∨ br = [13, 10] ∨ br = [13] := by
          rcases hshape with h | h | ⟨h, _⟩
          · exact Or.inl h
          · exact Or.inr (Or.inl h)
          · exact Or.inr (Or.inr h)
        exact (pyLastLine_append_boundary a br hfree hshape').symm
      · have hne := pySplitlines_ne_nil rest hrest
        have hcons : ((a :: pySplitlines rest).getLast?).getD x =
            ((pySplitlines rest).getLast?).getD rest := by
          cases hpr : pySplitlines rest with
          | nil => exact absurd hpr hne
          | cons y ys =>
            rw [List.getLast?_cons_cons]
            have h1 : (y :: ys).getLast? = some ((y :: ys).getLast (by simp)) :=
              List.getLast?_eq_getLast _ _
            rw [h1]
            rfl
        rw [htr] at ih
        rw [hcons, ih]
        conv_rhs => rw [hs]
        exact (pyLastLine_append a br rest hshape hrest).symm

/-- C7 counterexample: an idle engine with buffer b'abc\n' (no SBDRING,
empty queue) trims the buffer to b'abc', not to b'' - the claim's
"a non-empty buffer that ends with a newline becomes empty" is false. -/
theorem trim_trailing_newline_not_empty :
    (checkIo idleState [97, 98, 99, 10]).st.readBuf = [97, 98, 99] ∧
    ([97, 98, 99] : List Nat) ≠ [] := by decide

/-- C7 amended: with no pending command, no SBDRING in the buffer and an
empty sequential queue, the step replaces the read buffer with its last
line - the content after the last line boundary or, when the buffer ends
with a boundary (LF, CRLF or CR), the final line without its terminator -
and changes nothing else, firing no callback and writing nothing. -/
theorem unsolicited_trim_last_line (s : EngineState) (m : List Nat)
    (hp : pyTruthy s.prevCmd = false)
    (hr : bytesFind ringBytes (s.readBuf ++ m) = none)
    (hq : s.seqQueue = []) :
    (checkIo s m).st = { s with readBuf := pyLastLine (s.readBuf ++ m) } ∧
    (checkIo s m).events = [] ∧ (checkIo s m).writes = [] := by
  have hmain : checkIo s m =
      { st := { s with readBuf := pyLastLine (s.readBuf ++ m) },
        events := [], writes := [] } := by
    rw [checkIo]
    rw [if_neg (by rw [hp]; simp)]
    rw [check_unsolicited.eq_def]
    simp only [hr, hq]
    rw [← pySplitlines_getLast (s.readBuf ++ m)]
  rw [hmain]
  exact ⟨rfl, rfl, rfl⟩

theorem unsolicited_trim_last_line_witness :
    (checkIo idleState [97, 98, 99, 10]).st =
      { idleState with readBuf := pyLastLine (idleState.readBuf ++ [97, 98, 99, 10]) } ∧
    (checkIo idleState [97, 98, 99, 10]).events = [] ∧
    (checkIo idleState [97, 98, 99, 10]).writes = [] :=
  unsolicited_trim_last_line idleState [97, 98, 99, 10] rfl (by decide) rfl
